import Mathlib

/-!
Verification of the ocfitshit progression engine against its specification.

The relational store (src/src/db/schema.ts) is embedded as lists of rows;
timestamps are integers; the Drizzle `findFirst` queries become `List.find?`
over those lists.  The tRPC mutation `userRouter.logExercise`
(src/src/lib/trpc/routers/user.ts, lines 98-232) runs inside
`db.transaction`, so it is embedded as one atomic state transition
`Database → Except EngineError (Database × LogExerciseResult)`: an `ok`
result carries the full post-transaction store, an `error` leaves the store
untouched (rollback).
-/

namespace Ocfitshit

/-- Row of `exercise_difficulties` (schema.ts): serial primary key and label. -/
structure ExerciseDifficulty where
  id : Int
  label : String
deriving DecidableEq

/-- Row of `exercise_catalog` (schema.ts): uuid key, name, optional difficulty
reference. -/
structure ExerciseCatalogRow where
  id : String
  name : String
  difficultyId : Option Int
deriving DecidableEq

/-- Row of `challenges` (schema.ts): season reference, nullable window bounds,
team flag and `pointsMultiplier` (integer, default 1). -/
structure ChallengeRow where
  id : String
  seasonId : String
  startsAt : Option Int
  endsAt : Option Int
  isTeamBased : Bool
  pointsMultiplier : Int
deriving DecidableEq

/-- Row of `user_profiles` (schema.ts): `level` defaults to 1 and the three
point columns default to 0. -/
structure UserProfileRow where
  userId : String
  level : Int
  totalPoints : Int
  currentPoints : Int
  teamPoints : Int
deriving DecidableEq

/-- Row of `teams` (schema.ts): running team total and `teamLevel`
(default 1, references `level_requirements`). -/
structure TeamRow where
  id : String
  name : String
  totalTeamPoints : Int
  teamLevel : Int
deriving DecidableEq

/-- Row of `team_members` (schema.ts): join relation between users and teams. -/
structure TeamMemberRow where
  teamId : String
  userId : String
  joinedAt : Int
deriving DecidableEq

/-- Row of `level_requirements` (schema.ts): `level` is the primary key. -/
structure LevelRequirementRow where
  level : Int
  pointsRequired : Int
deriving DecidableEq

/-- Row of `exercise_logs` (schema.ts): the append-only activity log.  The
`metadata` jsonb column is omitted; no engine rule reads it. -/
structure ExerciseLogRow where
  userId : String
  exerciseId : String
  challengeId : Option String
  quantity : Option Int
  unit : Option String
  sets : Option Int
  weight : Option Int
  duration : Option Int
  calories : Option Int
  difficultyMultiplier : Int
  points : Int
  createdAt : Int
deriving DecidableEq

/-- Row of `leaderboards` (schema.ts): precomputed ranking entry; `points` is
modeled as populated (non-null) since ranking only concerns scored entries. -/
structure LeaderboardRow where
  id : Int
  userId : String
  seasonId : Option String
  challengeId : Option String
  rank : Option Int
  points : Int
  calculatedAt : Int
deriving DecidableEq

/-- The relational store: one list of rows per table the engine touches. -/
structure Database where
  exerciseDifficulties : List ExerciseDifficulty
  exerciseCatalog : List ExerciseCatalogRow
  challenges : List ChallengeRow
  userProfiles : List UserProfileRow
  teams : List TeamRow
  teamMembers : List TeamMemberRow
  levelRequirements : List LevelRequirementRow
  exerciseLogs : List ExerciseLogRow
  leaderboards : List LeaderboardRow
deriving DecidableEq

/-- Terminal errors thrown inside `userRouter.logExercise`.  The TRPCError
NOT_FOUND codes of user.ts lines 135-140 and 171-176; `missingTeamRelation`
models the TypeError a dangling `teamMembers.teamId` would raise at line 213,
which likewise aborts the transaction. -/
inductive EngineError where
  | exerciseNotFound
  | userProfileNotFound
  | missingTeamRelation
deriving DecidableEq

/-- Input accepted by `userRouter.logExercise` (user.ts lines 99-111), minus
the opaque `metadata` record. -/
structure LogExerciseInput where
  exerciseId : String
  challengeId : Option String
  quantity : Option Int
  unit : Option String
  sets : Option Int
  weight : Option Int
  duration : Option Int
  calories : Option Int
deriving DecidableEq

/-- The drizzle `difficulty` relation of `exercise_catalog`
(schema.ts lines 439-442): resolve `difficultyId` against
`exercise_difficulties`. -/
def resolveDifficulty (db : Database) (exercise : ExerciseCatalogRow) :
    Option ExerciseDifficulty :=
  exercise.difficultyId.bind (fun i => db.exerciseDifficulties.find? (fun d => d.id == i))

/-- user.ts line 143: `exercise.difficulty?.id || 1` — a missing relation or a
falsy (zero) id both coalesce to 1. -/
def difficultyMultiplierOf (db : Database) (exercise : ExerciseCatalogRow) : Int :=
  match (resolveDifficulty db exercise).map (fun d => d.id) with
  | some i => if i = 0 then 1 else i
  | none => 1

/-- user.ts line 144: `const basePoints = 10`. -/
def basePoints : Int := 10

/-- user.ts line 145: `points = basePoints * difficultyMultiplier`.  The
challenge's `pointsMultiplier` does not appear in this computation. -/
def pointsFor (db : Database) (exercise : ExerciseCatalogRow) : Int :=
  basePoints * difficultyMultiplierOf db exercise

/-- The row inserted into `exercise_logs` (user.ts lines 148-164): the input
measurements plus the snapshotted multiplier and computed points. -/
def newLogRow (userId : String) (input : LogExerciseInput)
    (difficultyMultiplier points now : Int) : ExerciseLogRow :=
  { userId := userId
    exerciseId := input.exerciseId
    challengeId := input.challengeId
    quantity := input.quantity
    unit := input.unit
    sets := input.sets
    weight := input.weight
    duration := input.duration
    calories := input.calories
    difficultyMultiplier := difficultyMultiplier
    points := points
    createdAt := now }

/-- Outcome of the member progression step (user.ts lines 178-188). -/
structure ProgressionResult where
  profile : UserProfileRow
  leveledUp : Bool
deriving DecidableEq

/-- user.ts lines 178-199: add the delta to both point columns, look up the
requirement for `level + 1` only, and step the level exactly when that entry
exists and the new total reaches it. -/
def applyProgression (reqs : List LevelRequirementRow) (p : UserProfileRow)
    (points : Int) : ProgressionResult :=
  let newTotalPoints := p.totalPoints + points
  let newCurrentPoints := p.currentPoints + points
  let nextLevel := reqs.find? (fun r => r.level == p.level + 1)
  let leveledUp :=
    match nextLevel with
    | some nl => decide (nl.pointsRequired ≤ newTotalPoints)
    | none => false
  let newLevel := if leveledUp then p.level + 1 else p.level
  { profile :=
      { p with
          totalPoints := newTotalPoints
          currentPoints := newCurrentPoints
          level := newLevel }
    leveledUp := leveledUp }

/-- `UPDATE user_profiles SET ... WHERE userId = ...` replacing the whole row
(user.ts lines 191-199). -/
def setProfile (rows : List UserProfileRow) (userId : String)
    (newRow : UserProfileRow) : List UserProfileRow :=
  rows.map (fun p => if p.userId == userId then newRow else p)

/-- `UPDATE user_profiles SET teamPoints = v WHERE userId = ...`
(user.ts lines 217-222): only the `teamPoints` column changes. -/
def setProfileTeamPoints (rows : List UserProfileRow) (userId : String)
    (v : Int) : List UserProfileRow :=
  rows.map (fun p => if p.userId == userId then { p with teamPoints := v } else p)

/-- `UPDATE teams SET totalTeamPoints = v WHERE id = ...`
(user.ts lines 210-215): only the running total changes; `teamLevel` is not
among the set columns. -/
def setTeamTotal (rows : List TeamRow) (teamId : String) (v : Int) : List TeamRow :=
  rows.map (fun t => if t.id == teamId then { t with totalTeamPoints := v } else t)

/-- user.ts lines 201-223: the team block of the transaction.  If the member
has a `team_members` row, add the same delta to the team's running total and
to the member's `teamPoints` column (computed from the profile snapshot read
before the member update).  A membership row whose team is missing would make
`userTeam.team.totalTeamPoints` throw, aborting the transaction. -/
def teamPhase (db : Database) (userId : String) (currentProfile : UserProfileRow)
    (points : Int) : Except EngineError Database :=
  match db.teamMembers.find? (fun tm => tm.userId == userId) with
  | none => Except.ok db
  | some userTeam =>
    match db.teams.find? (fun t => t.id == userTeam.teamId) with
    | none => Except.error EngineError.missingTeamRelation
    | some team =>
      Except.ok
        { db with
            teams := setTeamTotal db.teams team.id (team.totalTeamPoints + points)
            userProfiles :=
              setProfileTeamPoints db.userProfiles userId
                (currentProfile.teamPoints + points) }

/-- Shape of the object returned by `userRouter.logExercise`
(user.ts lines 225-230).  `profile` is the row returned by the first
`userProfiles` update — captured before the team block runs. -/
structure LogExerciseResult where
  exerciseLog : ExerciseLogRow
  profile : UserProfileRow
  leveledUp : Bool
  pointsEarned : Int
deriving DecidableEq

/-- `userRouter.logExercise` (user.ts lines 98-232), the whole
`db.transaction` body: resolve the exercise (NOT_FOUND otherwise), compute
`10 × difficulty`, append the log row (the supplied `challengeId` is stored
without any lookup or window validation), read the profile (NOT_FOUND
otherwise), apply progression, write the profile, then run the team block.
No step reads the `challenges` table. -/
def logExercise (db : Database) (userId : String) (input : LogExerciseInput)
    (now : Int) : Except EngineError (Database × LogExerciseResult) :=
  match db.exerciseCatalog.find? (fun e => e.id == input.exerciseId) with
  | none => Except.error EngineError.exerciseNotFound
  | some exercise =>
    match db.userProfiles.find? (fun q => q.userId == userId) with
    | none => Except.error EngineError.userProfileNotFound
    | some currentProfile =>
      Except.map
        (fun dbFinal =>
          (dbFinal,
            { exerciseLog :=
                newLogRow userId input (difficultyMultiplierOf db exercise)
                  (pointsFor db exercise) now
              profile :=
                (applyProgression db.levelRequirements currentProfile
                  (pointsFor db exercise)).profile
              leveledUp :=
                (applyProgression db.levelRequirements currentProfile
                  (pointsFor db exercise)).leveledUp
              pointsEarned := pointsFor db exercise }))
        (teamPhase
          { db with
              exerciseLogs :=
                db.exerciseLogs ++
                  [newLogRow userId input (difficultyMultiplierOf db exercise)
                    (pointsFor db exercise) now]
              userProfiles :=
                setProfile db.userProfiles userId
                  (applyProgression db.levelRequirements currentProfile
                    (pointsFor db exercise)).profile }
          userId currentProfile (pointsFor db exercise))

/-- Window guard of `challengeRouter.logExercise` (user.ts lines 359-362):
`challenge.startsAt && challenge.endsAt && (startsAt > now || endsAt < now)`
— `true` exactly when the guard throws "Challenge is not active".  A null
bound short-circuits to no rejection. -/
def challengeInactiveGuard (c : ChallengeRow) (now : Int) : Bool :=
  match c.startsAt, c.endsAt with
  | some s, some e => decide (s > now) || decide (e < now)
  | _, _ => false

/-- Where-clause of `challengeRouter.listActive` (user.ts lines 449-461):
`lte(startsAt, now) && gte(endsAt, now)`; a SQL comparison against a NULL
bound is not true, so such rows are excluded. -/
def challengeActiveFilter (c : ChallengeRow) (now : Int) : Bool :=
  match c.startsAt, c.endsAt with
  | some s, some e => decide (s ≤ now) && decide (e ≥ now)
  | _, _ => false

/-- The rows `challengeRouter.listActive` returns (its `orderBy endsAt asc`
only permutes the result; the claims concern membership). -/
def listActiveChallenges (db : Database) (now : Int) : List ChallengeRow :=
  db.challenges.filter (fun c => challengeActiveFilter c now)

/-- `ORDER BY points DESC` comparator of the two `getLeaderboard` queries
(season.ts line 70 and user.ts line 517): the sole sort key is `points`,
descending. -/
def lbDescPoints (a b : LeaderboardRow) : Prop := b.points ≤ a.points

instance : DecidableRel lbDescPoints := fun a b => Int.decLe b.points a.points

instance : IsTotal LeaderboardRow lbDescPoints := ⟨fun a b => le_total b.points a.points⟩

instance : IsTrans LeaderboardRow lbDescPoints := ⟨fun _ _ _ h1 h2 => le_trans h2 h1⟩

/-- Page returned by the leaderboard queries: items plus optional cursor. -/
structure LeaderboardPage where
  items : List LeaderboardRow
  nextCursor : Option Nat
deriving DecidableEq

/-- Shared body of `seasonRouter.getLeaderboard` (season.ts lines 63-86) and
`challengeRouter.getLeaderboard` (user.ts lines 510-533); only the
where-clause differs.  `findMany` with `orderBy desc(points)`, `offset
cursor`, `limit limit + 1` is embedded as a stable sort on the stored row
order followed by drop/take; fetching `limit + 1` rows decides whether a
next page exists, in which case the extra row is popped and
`nextCursor = cursor ? cursor + limit : limit`. -/
def getLeaderboardScoped (rows : List LeaderboardRow)
    (scopeFilter : LeaderboardRow → Bool) (limit : Nat) (cursor : Option Nat) :
    LeaderboardPage :=
  let sorted := List.insertionSort lbDescPoints (rows.filter scopeFilter)
  let entries := (sorted.drop (cursor.getD 0)).take (limit + 1)
  if limit < entries.length then
    { items := entries.dropLast
      nextCursor :=
        some (match cursor with
          | some c => if c = 0 then limit else c + limit
          | none => limit) }
  else
    { items := entries, nextCursor := none }

/-- `seasonRouter.getLeaderboard`: scope is `eq(leaderboards.seasonId, id)`. -/
def seasonGetLeaderboard (db : Database) (seasonId : String) (limit : Nat)
    (cursor : Option Nat) : LeaderboardPage :=
  getLeaderboardScoped db.leaderboards (fun r => r.seasonId == some seasonId)
    limit cursor

/-- `challengeRouter.getLeaderboard`: scope is
`eq(leaderboards.challengeId, id)`. -/
def challengeGetLeaderboard (db : Database) (challengeId : String) (limit : Nat)
    (cursor : Option Nat) : LeaderboardPage :=
  getLeaderboardScoped db.leaderboards (fun r => r.challengeId == some challengeId)
    limit cursor

/-- Some ladder entry for level `lv` is reached by `pts` points. -/
def Qualifies (reqs : List LevelRequirementRow) (pts lv : Int) : Prop :=
  ∃ r ∈ reqs, r.level = lv ∧ r.pointsRequired ≤ pts

/-- `lv` is the highest ladder level whose `pointsRequired ≤ pts` — the
member-level invariant the spec states. -/
def IsHighestQualifiedLevel (reqs : List LevelRequirementRow) (pts lv : Int) : Prop :=
  Qualifies reqs pts lv ∧ ∀ r ∈ reqs, r.pointsRequired ≤ pts → r.level ≤ lv

instance (reqs : List LevelRequirementRow) (pts lv : Int) :
    Decidable (Qualifies reqs pts lv) :=
  List.decidableBEx _ reqs

instance (reqs : List LevelRequirementRow) (pts lv : Int) :
    Decidable (IsHighestQualifiedLevel reqs pts lv) := by
  unfold IsHighestQualifiedLevel
  exact instDecidableAnd

/-- One activity submission: the caller, the logExercise input and the
submission time. -/
structure SubmittedActivity where
  userId : String
  input : LogExerciseInput
  now : Int
deriving DecidableEq

/-- Effect of one submission on the store: a successful transaction commits
its new state; a failed one rolls back, leaving the store unchanged. -/
def applySubmission (db : Database) (s : SubmittedActivity) : Database :=
  match logExercise db s.userId s.input s.now with
  | Except.ok (db2, _) => db2
  | Except.error _ => db

/-- Fold a sequence of submissions over the store. -/
def runSubmissions (db : Database) : List SubmittedActivity → Database
  | [] => db
  | s :: rest => runSubmissions (applySubmission db s) rest

/-- Every profile row has `currentPoints = totalPoints` (both columns default
to 0, and `userRouter.logExercise` adds the same delta to both). -/
def CurrentEqTotal (db : Database) : Prop :=
  ∀ p ∈ db.userProfiles, p.currentPoints = p.totalPoints

instance (db : Database) : Decidable (CurrentEqTotal db) :=
  List.decidableBAll _ db.userProfiles

/-! ### Helper lemmas -/

theorem except_map_ok {α β ε : Type} {f : α → β} {e : Except ε α} {b : β}
    (h : Except.map f e = Except.ok b) : ∃ a, e = Except.ok a ∧ f a = b := by
  cases e with
  | error x => simp [Except.map] at h
  | ok a => exact ⟨a, rfl, by simpa [Except.map] using h⟩

/-- Unfolding a successful team block: either the member has no membership
row and the store passes through, or the delta lands on the team row and the
`teamPoints` column in one step. -/
theorem teamPhase_ok_elim {db : Database} {u : String} {p : UserProfileRow}
    {pts : Int} {dbF : Database} (h : teamPhase db u p pts = Except.ok dbF) :
    (db.teamMembers.find? (fun tm => tm.userId == u) = none ∧ dbF = db) ∨
    (∃ tm team, db.teamMembers.find? (fun tm => tm.userId == u) = some tm ∧
      db.teams.find? (fun t => t.id == tm.teamId) = some team ∧
      dbF = { db with
        teams := setTeamTotal db.teams team.id (team.totalTeamPoints + pts)
        userProfiles := setProfileTeamPoints db.userProfiles u (p.teamPoints + pts) }) := by
  unfold teamPhase at h
  split at h
  next hnone =>
    injection h with h
    exact Or.inl ⟨hnone, h.symm⟩
  next tm hsome =>
    split at h
    next => exact Except.noConfusion h
    next team hteam =>
      injection h with h
      exact Or.inr ⟨tm, team, hsome, hteam, h.symm⟩

/-- Unfolding a successful `logExercise`: the exercise and profile lookups
succeeded, every component of the result is the literal the code builds, and
the final store is the team block applied to the store holding the new log
row and the updated profile row. -/
theorem logExercise_ok_elim {db : Database} {u : String}
    {input : LogExerciseInput} {now : Int} {db2 : Database}
    {res : LogExerciseResult}
    (h : logExercise db u input now = Except.ok (db2, res)) :
    ∃ ex p,
      db.exerciseCatalog.find? (fun e => e.id == input.exerciseId) = some ex ∧
      db.userProfiles.find? (fun q => q.userId == u) = some p ∧
      res.pointsEarned = pointsFor db ex ∧
      res.profile = (applyProgression db.levelRequirements p (pointsFor db ex)).profile ∧
      res.leveledUp = (applyProgression db.levelRequirements p (pointsFor db ex)).leveledUp ∧
      res.exerciseLog = newLogRow u input (difficultyMultiplierOf db ex) (pointsFor db ex) now ∧
      teamPhase
        { db with
            exerciseLogs := db.exerciseLogs ++
              [newLogRow u input (difficultyMultiplierOf db ex) (pointsFor db ex) now]
            userProfiles := setProfile db.userProfiles u
              (applyProgression db.levelRequirements p (pointsFor db ex)).profile }
        u p (pointsFor db ex) = Except.ok db2 := by
  unfold logExercise at h
  split at h
  next => exact Except.noConfusion h
  next ex hex =>
    split at h
    next => exact Except.noConfusion h
    next p hp =>
      obtain ⟨dbF, hF, hfb⟩ := except_map_ok h
      cases hfb
      exact ⟨ex, p, hex, hp, rfl, rfl, rfl, rfl, hF⟩

theorem find?_update_map (rows : List UserProfileRow) (u : String)
    (f : UserProfileRow → UserProfileRow)
    (hf : ∀ p, (p.userId == u) = true → ((f p).userId == u) = true) :
    (rows.map (fun p => if p.userId == u then f p else p)).find?
        (fun q => q.userId == u)
      = (rows.find? (fun q => q.userId == u)).map f := by
  induction rows with
  | nil => rfl
  | cons a rest ih =>
    simp only [List.map_cons]
    by_cases hcond : (a.userId == u) = true
    · rw [if_pos hcond]
      simp only [List.find?, hf a hcond, hcond, Option.map_some']
    · rw [if_neg hcond]
      have hfalse : (a.userId == u) = false := eq_false_of_ne_true hcond
      simp only [List.find?, hfalse, ih]

theorem find?_setProfile (rows : List UserProfileRow) (u : String)
    (newRow : UserProfileRow) (hnew : (newRow.userId == u) = true) :
    (setProfile rows u newRow).find? (fun q => q.userId == u)
      = (rows.find? (fun q => q.userId == u)).map (fun _ => newRow) :=
  find?_update_map rows u (fun _ => newRow) (fun _ _ => hnew)

theorem find?_setProfileTeamPoints (rows : List UserProfileRow) (u : String)
    (v : Int) :
    (setProfileTeamPoints rows u v).find? (fun q => q.userId == u)
      = (rows.find? (fun q => q.userId == u)).map (fun p => { p with teamPoints := v }) :=
  find?_update_map rows u (fun p => { p with teamPoints := v }) (fun _ hp => hp)

theorem applyProgression_totalPoints (reqs : List LevelRequirementRow)
    (p : UserProfileRow) (pts : Int) :
    (applyProgression reqs p pts).profile.totalPoints = p.totalPoints + pts := rfl

theorem applyProgression_currentPoints (reqs : List LevelRequirementRow)
    (p : UserProfileRow) (pts : Int) :
    (applyProgression reqs p pts).profile.currentPoints = p.currentPoints + pts := rfl

theorem applyProgression_teamPoints (reqs : List LevelRequirementRow)
    (p : UserProfileRow) (pts : Int) :
    (applyProgression reqs p pts).profile.teamPoints = p.teamPoints := rfl

theorem applyProgression_userId (reqs : List LevelRequirementRow)
    (p : UserProfileRow) (pts : Int) :
    (applyProgression reqs p pts).profile.userId = p.userId := rfl

theorem applyProgression_level_of_none {reqs : List LevelRequirementRow}
    {p : UserProfileRow} (pts : Int)
    (hfind : reqs.find? (fun r => r.level == p.level + 1) = none) :
    (applyProgression reqs p pts).profile.level = p.level := by
  unfold applyProgression
  rw [hfind]
  rfl

theorem applyProgression_level_of_some {reqs : List LevelRequirementRow}
    {p : UserProfileRow} {nl : LevelRequirementRow} (pts : Int)
    (hfind : reqs.find? (fun r => r.level == p.level + 1) = some nl) :
    (applyProgression reqs p pts).profile.level =
      if nl.pointsRequired ≤ p.totalPoints + pts then p.level + 1 else p.level := by
  unfold applyProgression
  rw [hfind]
  by_cases hle : nl.pointsRequired ≤ p.totalPoints + pts
  · simp [hle]
  · simp [hle]

theorem difficultyMultiplierOf_ne_zero (db : Database)
    (ex : ExerciseCatalogRow) : difficultyMultiplierOf db ex ≠ 0 := by
  unfold difficultyMultiplierOf
  split
  next i _ =>
    by_cases h0 : i = 0
    · simp [h0]
    · simp [h0]
  next => simp

theorem pointsFor_ne_zero (db : Database) (ex : ExerciseCatalogRow) :
    pointsFor db ex ≠ 0 :=
  mul_ne_zero (by norm_num [basePoints]) (difficultyMultiplierOf_ne_zero db ex)

/-! ### Claim C1 -/

/-- Store for the spec's Scenario B: an exercise of difficulty rank 2 and a
challenge with `pointsMultiplier = 3` whose window `[0, 100]` contains the
logging time 50. -/
def dbScenarioB : Database :=
  { exerciseDifficulties := [⟨2, "Intermediate"⟩]
    exerciseCatalog := [⟨"ex1", "Pushups", some 2⟩]
    challenges := [⟨"ch1", "season1", some 0, some 100, false, 3⟩]
    userProfiles := [⟨"u1", 1, 0, 0, 0⟩]
    teams := []
    teamMembers := []
    levelRequirements := [⟨1, 0⟩]
    exerciseLogs := []
    leaderboards := [] }

/-- Scenario B input: log that exercise under the multiplier-3 challenge. -/
def inputScenarioB : LogExerciseInput :=
  { exerciseId := "ex1", challengeId := some "ch1", quantity := none
    unit := none, sets := none, weight := none, duration := none
    calories := none }

/-- Claim C1: logging an exercise of difficulty 2 under a currently active
challenge with pointsMultiplier 3 should award 10 × 2 × 3 = 60 points.  The
code computes `points = basePoints * difficultyMultiplier` (user.ts line 145)
without ever reading the challenge row: at the claim's own Scenario B input
(active multiplier-3 challenge, shown by the middle conjunct) it awards 20,
not 60. -/
theorem logExercise_scenarioB_awards_20_not_60 :
    (logExercise dbScenarioB "u1" inputScenarioB 50).toOption.map
        (fun r => r.2.pointsEarned) = some 20 ∧
      dbScenarioB.challenges.map
        (fun c => (c.pointsMultiplier, challengeActiveFilter c 50)) = [(3, true)] ∧
      (20 : Int) ≠ 60 :=
  ⟨by decide, by decide, by decide⟩

/-! ### Claim C2 -/

/-- Store with a challenge whose window `[0, 10]` is entirely in the past at
logging time 50. -/
def dbExpired : Database :=
  { exerciseDifficulties := [⟨2, "Intermediate"⟩]
    exerciseCatalog := [⟨"ex1", "Pushups", some 2⟩]
    challenges := [⟨"ch1", "season1", some 0, some 10, false, 3⟩]
    userProfiles := [⟨"u1", 1, 0, 0, 0⟩]
    teams := []
    teamMembers := []
    levelRequirements := [⟨1, 0⟩]
    exerciseLogs := []
    leaderboards := [] }

/-- Input referencing the expired challenge. -/
def inputExpired : LogExerciseInput :=
  { exerciseId := "ex1", challengeId := some "ch1", quantity := none
    unit := none, sets := none, weight := none, duration := none
    calories := none }

/-- Claim C2 counterexample: at time 50 the referenced challenge ended at 10
(first conjunct: its window test is false), yet `userRouter.logExercise`
does not fail — it returns ok, awards 20 points to the member's totals, and
inserts an activity-log entry tagged with the expired challenge. -/
theorem logExercise_expired_challenge_succeeds :
    dbExpired.challenges.map (fun c => (c.endsAt, challengeActiveFilter c 50))
        = [(some 10, false)] ∧
      (logExercise dbExpired "u1" inputExpired 50).toOption.map
        (fun r =>
          (r.2.pointsEarned,
            r.1.userProfiles.map (fun p => p.totalPoints),
            r.1.exerciseLogs.map (fun l => l.challengeId)))
        = some (20, [20], [some "ch1"]) :=
  ⟨by decide, by decide⟩

/-- Claim C2 amended: `userRouter.logExercise` performs no challenge-window
validation at all.  Whenever the exercise and profile lookups succeed, the
call commits for every `challengeId` and every `now` — including a challenge
whose `endsAt` is past — awarding the usual points, inserting the log entry
tagged with that `challengeId`, updating the member's totals, and, when the
member has a team row, adding the same delta to the team's total.  `hfk` is
the schema's foreign-key constraint (`team_members.teamId` references
`teams.id`); no hypothesis about the `challenges` table or its windows
appears anywhere. -/
theorem logExercise_no_window_validation
    (db : Database) (u : String) (input : LogExerciseInput) (now : Int)
    (ex : ExerciseCatalogRow) (p : UserProfileRow)
    (hex : db.exerciseCatalog.find? (fun e => e.id == input.exerciseId) = some ex)
    (hp : db.userProfiles.find? (fun q => q.userId == u) = some p)
    (hfk : ∀ tm ∈ db.teamMembers, ∃ team ∈ db.teams, team.id = tm.teamId) :
    ∃ db2 res, logExercise db u input now = Except.ok (db2, res) ∧
      res.pointsEarned = pointsFor db ex ∧
      db2.exerciseLogs = db.exerciseLogs ++
        [newLogRow u input (difficultyMultiplierOf db ex) (pointsFor db ex) now] ∧
      (db.teamMembers.find? (fun tm => tm.userId == u) = none →
        db2.teams = db.teams ∧
        db2.userProfiles = setProfile db.userProfiles u
          (applyProgression db.levelRequirements p (pointsFor db ex)).profile) ∧
      (∀ tm, db.teamMembers.find? (fun tm => tm.userId == u) = some tm →
        ∃ team, db.teams.find? (fun t => t.id == tm.teamId) = some team ∧
          db2.teams = setTeamTotal db.teams team.id
            (team.totalTeamPoints + pointsFor db ex) ∧
          db2.userProfiles =
            setProfileTeamPoints
              (setProfile db.userProfiles u
                (applyProgression db.levelRequirements p (pointsFor db ex)).profile)
              u (p.teamPoints + pointsFor db ex)) := by
  cases hm : db.teamMembers.find? (fun tm => tm.userId == u) with
  | none =>
    have heq : logExercise db u input now =
        Except.ok
          ({ db with
              exerciseLogs := db.exerciseLogs ++
                [newLogRow u input (difficultyMultiplierOf db ex) (pointsFor db ex) now]
              userProfiles := setProfile db.userProfiles u
                (applyProgression db.levelRequirements p (pointsFor db ex)).profile },
            { exerciseLog :=
                newLogRow u input (difficultyMultiplierOf db ex) (pointsFor db ex) now
              profile := (applyProgression db.levelRequirements p (pointsFor db ex)).profile
              leveledUp := (applyProgression db.levelRequirements p (pointsFor db ex)).leveledUp
              pointsEarned := pointsFor db ex }) := by
      unfold logExercise teamPhase
      rw [hex, hp]
      dsimp only
      rw [hm]
      rfl
    refine ⟨_, _, heq, rfl, rfl, fun _ => ⟨rfl, rfl⟩, ?_⟩
    intro tm htm
    exact Option.noConfusion htm
  | some tm =>
    have htm_mem : tm ∈ db.teamMembers := List.mem_of_find?_eq_some hm
    obtain ⟨team, hteam_mem, hteam_id⟩ := hfk tm htm_mem
    cases hfind : db.teams.find? (fun t => t.id == tm.teamId) with
    | none =>
      have hbeq : (team.id == tm.teamId) = true := by
        rw [hteam_id]
        exact beq_self_eq_true _
      exact absurd hbeq (List.find?_eq_none.mp hfind team hteam_mem)
    | some team0 =>
      have heq : logExercise db u input now =
          Except.ok
            ({ db with
                exerciseLogs := db.exerciseLogs ++
                  [newLogRow u input (difficultyMultiplierOf db ex) (pointsFor db ex) now]
                userProfiles :=
                  setProfileTeamPoints
                    (setProfile db.userProfiles u
                      (applyProgression db.levelRequirements p (pointsFor db ex)).profile)
                    u (p.teamPoints + pointsFor db ex)
                teams := setTeamTotal db.teams team0.id
                  (team0.totalTeamPoints + pointsFor db ex) },
              { exerciseLog :=
                  newLogRow u input (difficultyMultiplierOf db ex) (pointsFor db ex) now
                profile := (applyProgression db.levelRequirements p (pointsFor db ex)).profile
                leveledUp := (applyProgression db.levelRequirements p (pointsFor db ex)).leveledUp
                pointsEarned := pointsFor db ex }) := by
        unfold logExercise teamPhase
        rw [hex, hp]
        dsimp only
        rw [hm]
        dsimp only
        rw [hfind]
        rfl
      refine ⟨_, _, heq, rfl, rfl, ?_, ?_⟩
      · intro hn
        exact Option.noConfusion hn
      · intro tm1 htm1
        injection htm1 with htm1
        subst htm1
        exact ⟨team0, hfind, rfl, rfl⟩

/-- The expired-challenge store with the member on team t1: the case the
original claim singles out (points must reach no member or team total). -/
def dbExpiredTeam : Database :=
  { dbExpired with
      teams := [⟨"t1", "Alpha", 5, 1⟩]
      teamMembers := [⟨"t1", "u1", 0⟩] }

/-- Claim C2 amended, witnessed for a team member at the expired-challenge
store: the call at time 50 against the challenge that ended at 10 commits,
awards the usual 20 points, inserts the tagged log row, and adds the same
delta to team t1's total. -/
theorem logExercise_no_window_validation_witness :
    ∃ db2 res, logExercise dbExpiredTeam "u1" inputExpired 50 =
        Except.ok (db2, res) ∧
      res.pointsEarned = pointsFor dbExpiredTeam ⟨"ex1", "Pushups", some 2⟩ ∧
      db2.exerciseLogs = dbExpiredTeam.exerciseLogs ++
        [newLogRow "u1" inputExpired
          (difficultyMultiplierOf dbExpiredTeam ⟨"ex1", "Pushups", some 2⟩)
          (pointsFor dbExpiredTeam ⟨"ex1", "Pushups", some 2⟩) 50] ∧
      (dbExpiredTeam.teamMembers.find? (fun tm => tm.userId == "u1") = none →
        db2.teams = dbExpiredTeam.teams ∧
        db2.userProfiles = setProfile dbExpiredTeam.userProfiles "u1"
          (applyProgression dbExpiredTeam.levelRequirements ⟨"u1", 1, 0, 0, 0⟩
            (pointsFor dbExpiredTeam ⟨"ex1", "Pushups", some 2⟩)).profile) ∧
      (∀ tm, dbExpiredTeam.teamMembers.find? (fun tm => tm.userId == "u1")
          = some tm →
        ∃ team, dbExpiredTeam.teams.find? (fun t => t.id == tm.teamId)
            = some team ∧
          db2.teams = setTeamTotal dbExpiredTeam.teams team.id
            (team.totalTeamPoints + pointsFor dbExpiredTeam ⟨"ex1", "Pushups", some 2⟩) ∧
          db2.userProfiles =
            setProfileTeamPoints
              (setProfile dbExpiredTeam.userProfiles "u1"
                (applyProgression dbExpiredTeam.levelRequirements ⟨"u1", 1, 0, 0, 0⟩
                  (pointsFor dbExpiredTeam ⟨"ex1", "Pushups", some 2⟩)).profile)
              "u1" (0 + pointsFor dbExpiredTeam ⟨"ex1", "Pushups", some 2⟩)) :=
  logExercise_no_window_validation dbExpiredTeam "u1" inputExpired 50
    ⟨"ex1", "Pushups", some 2⟩ ⟨"u1", 1, 0, 0, 0⟩ rfl rfl (by decide)

/-! ### Claim C4 -/

/-- Claim C4: every successful `logExercise` adds the awarded delta to both
`totalPoints` and `currentPoints`, and steps the level to `level + 1` exactly
when a ladder entry for `level + 1` exists whose `pointsRequired` is reached
by the new total — at most one step per update and never downward.  The
`huniq` hypothesis is the `level` primary-key constraint of
`level_requirements`. -/
theorem logExercise_progression_spec
    (db : Database) (u : String) (input : LogExerciseInput) (now : Int)
    (db2 : Database) (res : LogExerciseResult) (p : UserProfileRow)
    (h : logExercise db u input now = Except.ok (db2, res))
    (hp : db.userProfiles.find? (fun q => q.userId == u) = some p)
    (huniq : ∀ r ∈ db.levelRequirements, ∀ s ∈ db.levelRequirements,
      r.level = s.level → r = s) :
    res.profile.totalPoints = p.totalPoints + res.pointsEarned ∧
    res.profile.currentPoints = p.currentPoints + res.pointsEarned ∧
    (res.profile.level = p.level + 1 ↔
      ∃ r ∈ db.levelRequirements, r.level = p.level + 1 ∧
        r.pointsRequired ≤ p.totalPoints + res.pointsEarned) ∧
    (res.profile.level = p.level + 1 ∨ res.profile.level = p.level) := by
  obtain ⟨ex, p', hex, hp', hpe, hprof, -, -, -⟩ := logExercise_ok_elim h
  rw [hp] at hp'
  injection hp' with hp'
  subst hp'
  rw [hpe, hprof]
  have hmain :
      ((applyProgression db.levelRequirements p (pointsFor db ex)).profile.level
          = p.level + 1 ↔
        ∃ r ∈ db.levelRequirements, r.level = p.level + 1 ∧
          r.pointsRequired ≤ p.totalPoints + pointsFor db ex) ∧
      ((applyProgression db.levelRequirements p (pointsFor db ex)).profile.level
          = p.level + 1 ∨
        (applyProgression db.levelRequirements p (pointsFor db ex)).profile.level
          = p.level) := by
    cases hfind : db.levelRequirements.find? (fun r => r.level == p.level + 1) with
    | none =>
      have hlvl := applyProgression_level_of_none (pointsFor db ex) hfind
      rw [hlvl]
      refine ⟨⟨fun hfalse => absurd hfalse (by omega), ?_⟩, Or.inr rfl⟩
      rintro ⟨r, hr, hrl, -⟩
      have hbeq : (r.level == p.level + 1) = true := by rw [hrl]; exact beq_self_eq_true _
      exact absurd hbeq (List.find?_eq_none.mp hfind r hr)
    | some nl =>
      have hnl_mem : nl ∈ db.levelRequirements := List.mem_of_find?_eq_some hfind
      have hnl_beq := List.find?_some hfind
      have hnl_lvl : nl.level = p.level + 1 := eq_of_beq hnl_beq
      have hlvl := applyProgression_level_of_some (pointsFor db ex) hfind
      by_cases hle : nl.pointsRequired ≤ p.totalPoints + pointsFor db ex
      · rw [if_pos hle] at hlvl
        rw [hlvl]
        exact ⟨⟨fun _ => ⟨nl, hnl_mem, hnl_lvl, hle⟩, fun _ => rfl⟩, Or.inl rfl⟩
      · rw [if_neg hle] at hlvl
        rw [hlvl]
        refine ⟨⟨fun hfalse => absurd hfalse (by omega), ?_⟩, Or.inr rfl⟩
        rintro ⟨r, hr, hrl, hrle⟩
        have hr_eq : r = nl := huniq r hr nl hnl_mem (by rw [hrl, hnl_lvl])
        rw [hr_eq] at hrle
        exact absurd hrle hle
  exact ⟨applyProgression_totalPoints _ _ _, applyProgression_currentPoints _ _ _,
    hmain.1, hmain.2⟩

/-- Store for the spec's Scenario C: a member at level 1 with 90 points,
`pointsRequired(2) = 100`, logging an exercise worth 20 points. -/
def dbScenarioC : Database :=
  { exerciseDifficulties := [⟨2, "Intermediate"⟩]
    exerciseCatalog := [⟨"ex1", "Pushups", some 2⟩]
    challenges := []
    userProfiles := [⟨"u1", 1, 90, 90, 0⟩]
    teams := []
    teamMembers := []
    levelRequirements := [⟨1, 0⟩, ⟨2, 100⟩]
    exerciseLogs := []
    leaderboards := [] }

/-- Scenario C input: no challenge reference. -/
def inputScenarioC : LogExerciseInput :=
  { exerciseId := "ex1", challengeId := none, quantity := none
    unit := none, sets := none, weight := none, duration := none
    calories := none }

/-- The result Scenario C commits: 20 points, totals 110, level 2. -/
def resScenarioC : LogExerciseResult :=
  { exerciseLog :=
      { userId := "u1", exerciseId := "ex1", challengeId := none
        quantity := none, unit := none, sets := none, weight := none
        duration := none, calories := none, difficultyMultiplier := 2
        points := 20, createdAt := 77 }
    profile := ⟨"u1", 2, 110, 110, 0⟩
    leveledUp := true
    pointsEarned := 20 }

/-- The store Scenario C commits. -/
def dbScenarioC2 : Database :=
  { dbScenarioC with
      exerciseLogs := [resScenarioC.exerciseLog]
      userProfiles := [⟨"u1", 2, 110, 110, 0⟩] }

/-- Claim C4, witnessed at Scenario C: `totalPoints 90 → 110` and the level
steps from 1 to 2 because `pointsRequired(2) = 100 ≤ 110`. -/
theorem logExercise_progression_spec_witness :
    resScenarioC.profile.totalPoints = 90 + resScenarioC.pointsEarned ∧
    resScenarioC.profile.currentPoints = 90 + resScenarioC.pointsEarned ∧
    (resScenarioC.profile.level = 1 + 1 ↔
      ∃ r ∈ dbScenarioC.levelRequirements, r.level = 1 + 1 ∧
        r.pointsRequired ≤ 90 + resScenarioC.pointsEarned) ∧
    (resScenarioC.profile.level = 1 + 1 ∨ resScenarioC.profile.level = 1) :=
  logExercise_progression_spec dbScenarioC "u1" inputScenarioC 77 dbScenarioC2
    resScenarioC ⟨"u1", 1, 90, 90, 0⟩ rfl rfl (by decide)

/-! ### Claim C3 -/

/-- Store where one activity is worth 20 points while the thresholds for
levels 2 and 3 are 10 and 20: a single award crosses two thresholds. -/
def dbJump : Database :=
  { exerciseDifficulties := [⟨2, "Intermediate"⟩]
    exerciseCatalog := [⟨"ex1", "Pushups", some 2⟩]
    challenges := []
    userProfiles := [⟨"u1", 1, 0, 0, 0⟩]
    teams := []
    teamMembers := []
    levelRequirements := [⟨1, 0⟩, ⟨2, 10⟩, ⟨3, 20⟩]
    exerciseLogs := []
    leaderboards := [] }

/-- Input for the two-threshold jump. -/
def inputJump : LogExerciseInput :=
  { exerciseId := "ex1", challengeId := none, quantity := none
    unit := none, sets := none, weight := none, duration := none
    calories := none }

/-- Claim C3 counterexample: a single 20-point award moves the member from
(level 1, 0 points) to (level 2, 20 points), but the highest ladder level
whose requirement is ≤ 20 is level 3.  The update looks up only `level + 1`
(user.ts lines 182-184), so the invariant fails for a delta crossing two
thresholds — the claim's "for every size of point delta" is false. -/
theorem logExercise_level_invariant_fails_on_jump :
    (logExercise dbJump "u1" inputJump 0).toOption.map
        (fun r => (r.2.profile.totalPoints, r.2.profile.level)) = some (20, 2) ∧
      ¬ IsHighestQualifiedLevel dbJump.levelRequirements 20 2 :=
  ⟨by decide, by decide⟩

/-- Claim C3 amended: after a successful update the member's level is the
highest qualified ladder level provided the award crosses at most one
threshold — `hone` says no ladder entry more than one level above the old
level is reachable at the new total (the single-level-ahead check of
user.ts lines 182-188 advances at most one step per update).  `huniq` is the
`level` primary-key constraint; `hinv` says the invariant held before. -/
theorem logExercise_level_invariant_one_step
    (db : Database) (u : String) (input : LogExerciseInput) (now : Int)
    (db2 : Database) (res : LogExerciseResult) (p : UserProfileRow)
    (h : logExercise db u input now = Except.ok (db2, res))
    (hp : db.userProfiles.find? (fun q => q.userId == u) = some p)
    (hinv : IsHighestQualifiedLevel db.levelRequirements p.totalPoints p.level)
    (hpos : 0 ≤ res.pointsEarned)
    (huniq : ∀ r ∈ db.levelRequirements, ∀ s ∈ db.levelRequirements,
      r.level = s.level → r = s)
    (hone : ∀ r ∈ db.levelRequirements,
      r.pointsRequired ≤ p.totalPoints + res.pointsEarned → r.level ≤ p.level + 1) :
    IsHighestQualifiedLevel db.levelRequirements
      (p.totalPoints + res.pointsEarned) res.profile.level := by
  obtain ⟨ex, p', hex, hp', hpe, hprof, -, -, -⟩ := logExercise_ok_elim h
  rw [hp] at hp'
  injection hp' with hp'
  subst hp'
  rw [hpe] at hpos hone ⊢
  rw [hprof]
  obtain ⟨⟨r0, hr0_mem, hr0_lvl, hr0_le⟩, hmax⟩ := hinv
  cases hfind : db.levelRequirements.find? (fun r => r.level == p.level + 1) with
  | none =>
    rw [applyProgression_level_of_none (pointsFor db ex) hfind]
    constructor
    · exact ⟨r0, hr0_mem, hr0_lvl, by omega⟩
    · intro r hr hrle
      have hle1 := hone r hr hrle
      by_cases heq : r.level = p.level + 1
      · have hbeq : (r.level == p.level + 1) = true := by
          rw [heq]; exact beq_self_eq_true _
        exact absurd hbeq (List.find?_eq_none.mp hfind r hr)
      · omega
  | some nl =>
    have hnl_mem : nl ∈ db.levelRequirements := List.mem_of_find?_eq_some hfind
    have hnl_beq := List.find?_some hfind
    have hnl_lvl : nl.level = p.level + 1 := eq_of_beq hnl_beq
    have hlvl := applyProgression_level_of_some (pointsFor db ex) hfind
    by_cases hle : nl.pointsRequired ≤ p.totalPoints + pointsFor db ex
    · rw [if_pos hle] at hlvl
      rw [hlvl]
      exact ⟨⟨nl, hnl_mem, hnl_lvl, hle⟩, fun r hr hrle => hone r hr hrle⟩
    · rw [if_neg hle] at hlvl
      rw [hlvl]
      constructor
      · exact ⟨r0, hr0_mem, hr0_lvl, by omega⟩
      · intro r hr hrle
        have hle1 := hone r hr hrle
        by_cases heq : r.level = p.level + 1
        · have hr_eq : r = nl := huniq r hr nl hnl_mem (by rw [heq, hnl_lvl])
          rw [hr_eq] at hrle
          exact absurd hrle hle
        · omega

/-- Store for the single-threshold witness: a 10-point award takes the
member from 5 to 15 points, crossing only the level-2 threshold of 10. -/
def dbOneStep : Database :=
  { exerciseDifficulties := [⟨1, "Beginner"⟩]
    exerciseCatalog := [⟨"ex1", "Jog", some 1⟩]
    challenges := []
    userProfiles := [⟨"u1", 1, 5, 5, 0⟩]
    teams := []
    teamMembers := []
    levelRequirements := [⟨1, 0⟩, ⟨2, 10⟩]
    exerciseLogs := []
    leaderboards := [] }

/-- Input for the single-threshold witness. -/
def inputOneStep : LogExerciseInput :=
  { exerciseId := "ex1", challengeId := none, quantity := none
    unit := none, sets := none, weight := none, duration := none
    calories := none }

/-- The result the single-threshold witness commits. -/
def resOneStep : LogExerciseResult :=
  { exerciseLog :=
      { userId := "u1", exerciseId := "ex1", challengeId := none
        quantity := none, unit := none, sets := none, weight := none
        duration := none, calories := none, difficultyMultiplier := 1
        points := 10, createdAt := 3 }
    profile := ⟨"u1", 2, 15, 15, 0⟩
    leveledUp := true
    pointsEarned := 10 }

/-- The store the single-threshold witness commits. -/
def dbOneStep2 : Database :=
  { dbOneStep with
      exerciseLogs := [resOneStep.exerciseLog]
      userProfiles := [⟨"u1", 2, 15, 15, 0⟩] }

/-- Claim C3 amended, witnessed: after the 5 → 15 update the member sits at
level 2, the highest level with requirement ≤ 15. -/
theorem logExercise_level_invariant_one_step_witness :
    IsHighestQualifiedLevel dbOneStep.levelRequirements
      (5 + resOneStep.pointsEarned) resOneStep.profile.level :=
  logExercise_level_invariant_one_step dbOneStep "u1" inputOneStep 3 dbOneStep2
    resOneStep ⟨"u1", 1, 5, 5, 0⟩ rfl rfl (by decide) (by decide) (by decide)
    (by decide)

/-! ### Claim C5 -/

theorem setTeamTotal_teamLevel (rows : List TeamRow) (tid : String) (v : Int) :
    (setTeamTotal rows tid v).map (fun t => t.teamLevel)
      = rows.map (fun t => t.teamLevel) := by
  unfold setTeamTotal
  rw [List.map_map]
  induction rows with
  | nil => rfl
  | cons a rest ih =>
    rw [List.map_cons, List.map_cons, ih]
    by_cases hc : (a.id == tid) = true
    · simp [Function.comp, hc]
    · simp [Function.comp, hc]

/-- Store with a member on team t1 sitting at 90 team points, one short
activity away from the level-2 requirement of 100. -/
def dbTeam : Database :=
  { exerciseDifficulties := [⟨2, "Intermediate"⟩]
    exerciseCatalog := [⟨"ex1", "Pushups", some 2⟩]
    challenges := []
    userProfiles := [⟨"u1", 1, 0, 0, 0⟩]
    teams := [⟨"t1", "Alpha", 90, 1⟩]
    teamMembers := [⟨"t1", "u1", 0⟩]
    levelRequirements := [⟨1, 0⟩, ⟨2, 100⟩]
    exerciseLogs := []
    leaderboards := [] }

/-- Input for the team store. -/
def inputTeam : LogExerciseInput :=
  { exerciseId := "ex1", challengeId := none, quantity := none
    unit := none, sets := none, weight := none, duration := none
    calories := none }

/-- Claim C5 counterexample: the member's 20-point log lifts the team total
to 110, past the level-2 requirement of 100, yet `teamLevel` stays 1: the
team block (user.ts lines 209-223) only adds to `totalTeamPoints` and runs
no ladder lookup for the team, so 1 is not the level the member-progression
algorithm would assign at 110 points. -/
theorem logExercise_teamLevel_never_advances :
    (logExercise dbTeam "u1" inputTeam 9).toOption.map
        (fun r => r.1.teams.map (fun t => (t.totalTeamPoints, t.teamLevel)))
        = some [(110, 1)] ∧
      ¬ IsHighestQualifiedLevel dbTeam.levelRequirements 110 1 :=
  ⟨by decide, by decide⟩

/-- Claim C5 amended: a successful `logExercise` by a team member adds the
delta to the team's `totalTeamPoints` and leaves every team's `teamLevel`
exactly as it was — no ladder algorithm runs for teams. -/
theorem logExercise_team_total_only
    (db : Database) (u : String) (input : LogExerciseInput) (now : Int)
    (db2 : Database) (res : LogExerciseResult)
    (tm : TeamMemberRow) (team : TeamRow)
    (h : logExercise db u input now = Except.ok (db2, res))
    (hm : db.teamMembers.find? (fun x => x.userId == u) = some tm)
    (ht : db.teams.find? (fun t => t.id == tm.teamId) = some team) :
    db2.teams = setTeamTotal db.teams team.id
      (team.totalTeamPoints + res.pointsEarned) ∧
    db2.teams.map (fun t => t.teamLevel) = db.teams.map (fun t => t.teamLevel) := by
  obtain ⟨ex, p, hex, hp, hpe, -, -, -, hTP⟩ := logExercise_ok_elim h
  rw [hpe]
  obtain (⟨hnone, -⟩ | ⟨tm', team', hsome, hteam, hdbF⟩) := teamPhase_ok_elim hTP
  · dsimp only at hnone
    rw [hm] at hnone
    exact Option.noConfusion hnone
  · dsimp only at hsome hteam hdbF
    rw [hm] at hsome
    injection hsome with hsome
    subst hsome
    rw [ht] at hteam
    injection hteam with hteam
    subst hteam
    refine ⟨by rw [hdbF], ?_⟩
    rw [hdbF]
    exact setTeamTotal_teamLevel db.teams team.id
      (team.totalTeamPoints + pointsFor db ex)

/-- The result the team store commits: 20 points, no member level-up. -/
def resTeam : LogExerciseResult :=
  { exerciseLog :=
      { userId := "u1", exerciseId := "ex1", challengeId := none
        quantity := none, unit := none, sets := none, weight := none
        duration := none, calories := none, difficultyMultiplier := 2
        points := 20, createdAt := 9 }
    profile := ⟨"u1", 1, 20, 20, 0⟩
    leveledUp := false
    pointsEarned := 20 }

/-- The store the team scenario commits: team total 110, teamLevel still 1,
member `teamPoints` column now 20. -/
def dbTeam2 : Database :=
  { dbTeam with
      exerciseLogs := [resTeam.exerciseLog]
      userProfiles := [⟨"u1", 1, 20, 20, 20⟩]
      teams := [⟨"t1", "Alpha", 110, 1⟩] }

/-- Claim C5 amended, witnessed at the team store. -/
theorem logExercise_team_total_only_witness :
    dbTeam2.teams = setTeamTotal dbTeam.teams "t1" (90 + resTeam.pointsEarned) ∧
    dbTeam2.teams.map (fun t => t.teamLevel)
      = dbTeam.teams.map (fun t => t.teamLevel) :=
  logExercise_team_total_only dbTeam "u1" inputTeam 9 dbTeam2 resTeam
    ⟨"t1", "u1", 0⟩ ⟨"t1", "Alpha", 90, 1⟩ rfl rfl rfl

/-! ### Claim C6 -/

/-- Claim C6: within the single atomic transaction, the delta reaches
`team.totalTeamPoints` if and only if the member has a `team_members` row.
Both directions are read off the one committed store `db2`: with no
membership the teams table is untouched and only the member row changes;
with a membership the same committed store carries the member update and
the team update together (atomicity is the shape of the embedding: the
transition publishes one final store or, on error, none at all). -/
theorem logExercise_team_delta_iff_membership
    (db : Database) (u : String) (input : LogExerciseInput) (now : Int)
    (db2 : Database) (res : LogExerciseResult) (p : UserProfileRow)
    (h : logExercise db u input now = Except.ok (db2, res))
    (hp : db.userProfiles.find? (fun q => q.userId == u) = some p) :
    (db.teamMembers.find? (fun tm => tm.userId == u) = none →
      db2.teams = db.teams ∧
      db2.userProfiles = setProfile db.userProfiles u
        (applyProgression db.levelRequirements p res.pointsEarned).profile) ∧
    (∀ tm, db.teamMembers.find? (fun x => x.userId == u) = some tm →
      ∃ team, db.teams.find? (fun t => t.id == tm.teamId) = some team ∧
        db2.teams = setTeamTotal db.teams team.id
          (team.totalTeamPoints + res.pointsEarned) ∧
        db2.userProfiles =
          setProfileTeamPoints
            (setProfile db.userProfiles u
              (applyProgression db.levelRequirements p res.pointsEarned).profile)
            u (p.teamPoints + res.pointsEarned)) := by
  obtain ⟨ex, p', hex, hp', hpe, -, -, -, hTP⟩ := logExercise_ok_elim h
  rw [hp] at hp'
  injection hp' with hp'
  subst hp'
  rw [hpe]
  obtain (⟨hnone, hdbF⟩ | ⟨tm', team', hsome, hteam, hdbF⟩) := teamPhase_ok_elim hTP
  · dsimp only at hnone hdbF
    constructor
    · intro _
      rw [hdbF]
      exact ⟨rfl, rfl⟩
    · intro tm htm
      rw [htm] at hnone
      exact Option.noConfusion hnone
  · dsimp only at hsome hteam hdbF
    constructor
    · intro hn
      rw [hn] at hsome
      exact Option.noConfusion hsome
    · intro tm htm
      rw [htm] at hsome
      injection hsome with hsome
      subst hsome
      exact ⟨team', hteam, by rw [hdbF], by rw [hdbF]⟩

/-- Claim C6, witnessed at the team store: membership present, so the
committed store carries both the member update and the 90 → 110 team
update. -/
theorem logExercise_team_delta_iff_membership_witness :
    (dbTeam.teamMembers.find? (fun tm => tm.userId == "u1") = none →
      dbTeam2.teams = dbTeam.teams ∧
      dbTeam2.userProfiles = setProfile dbTeam.userProfiles "u1"
        (applyProgression dbTeam.levelRequirements ⟨"u1", 1, 0, 0, 0⟩
          resTeam.pointsEarned).profile) ∧
    (∀ tm, dbTeam.teamMembers.find? (fun x => x.userId == "u1") = some tm →
      ∃ team, dbTeam.teams.find? (fun t => t.id == tm.teamId) = some team ∧
        dbTeam2.teams = setTeamTotal dbTeam.teams team.id
          (team.totalTeamPoints + resTeam.pointsEarned) ∧
        dbTeam2.userProfiles =
          setProfileTeamPoints
            (setProfile dbTeam.userProfiles "u1"
              (applyProgression dbTeam.levelRequirements ⟨"u1", 1, 0, 0, 0⟩
                resTeam.pointsEarned).profile)
            "u1" (0 + resTeam.pointsEarned)) :=
  logExercise_team_delta_iff_membership dbTeam "u1" inputTeam 9 dbTeam2 resTeam
    ⟨"u1", 1, 0, 0, 0⟩ rfl rfl

/-! ### Claim C10 -/

/-- Claim C10: for a member with a team row, the profile object placed in
the result is the row returned by the first update (user.ts line 191) —
its `teamPoints` still equals the pre-call value even though the same
transaction then increments the stored column by the delta (user.ts lines
217-222), while its `totalPoints`, `currentPoints` and `level` do reflect
the update.  The delta is never zero, so returned and stored `teamPoints`
genuinely differ. -/
theorem logExercise_returned_profile_stale_teamPoints
    (db : Database) (u : String) (input : LogExerciseInput) (now : Int)
    (db2 : Database) (res : LogExerciseResult) (p : UserProfileRow)
    (tm : TeamMemberRow)
    (h : logExercise db u input now = Except.ok (db2, res))
    (hp : db.userProfiles.find? (fun q => q.userId == u) = some p)
    (hm : db.teamMembers.find? (fun x => x.userId == u) = some tm) :
    res.profile.teamPoints = p.teamPoints ∧
    res.pointsEarned ≠ 0 ∧
    res.profile.totalPoints = p.totalPoints + res.pointsEarned ∧
    res.profile.currentPoints = p.currentPoints + res.pointsEarned ∧
    db2.userProfiles.find? (fun q => q.userId == u)
      = some { res.profile with teamPoints := p.teamPoints + res.pointsEarned } := by
  obtain ⟨ex, p', hex, hp', hpe, hprof, -, -, hTP⟩ := logExercise_ok_elim h
  rw [hp] at hp'
  injection hp' with hp'
  subst hp'
  obtain (⟨hnone, -⟩ | ⟨tm', team', hsome, hteam, hdbF⟩) := teamPhase_ok_elim hTP
  · dsimp only at hnone
    rw [hm] at hnone
    exact Option.noConfusion hnone
  · dsimp only at hdbF
    have hpu : (p.userId == u) = true := by
      have hfs := List.find?_some hp
      exact hfs
    have hnew :
        ((applyProgression db.levelRequirements p (pointsFor db ex)).profile.userId
          == u) = true := by
      rw [applyProgression_userId]
      exact hpu
    refine ⟨?_, ?_, ?_, ?_, ?_⟩
    · rw [hprof]
      exact applyProgression_teamPoints _ _ _
    · rw [hpe]
      exact pointsFor_ne_zero db ex
    · rw [hprof, hpe]
      exact applyProgression_totalPoints _ _ _
    · rw [hprof, hpe]
      exact applyProgression_currentPoints _ _ _
    · rw [hdbF]
      dsimp only
      rw [find?_setProfileTeamPoints, find?_setProfile _ _ _ hnew, hp]
      dsimp only [Option.map]
      rw [hprof, hpe]

/-- Claim C10, witnessed at the team store: the returned profile still shows
`teamPoints = 0` while its totals are 20 and the stored row carries
`teamPoints = 20`. -/
theorem logExercise_returned_profile_stale_teamPoints_witness :
    resTeam.profile.teamPoints = 0 ∧
    resTeam.pointsEarned ≠ 0 ∧
    resTeam.profile.totalPoints = 0 + resTeam.pointsEarned ∧
    resTeam.profile.currentPoints = 0 + resTeam.pointsEarned ∧
    dbTeam2.userProfiles.find? (fun q => q.userId == "u1")
      = some { resTeam.profile with teamPoints := 0 + resTeam.pointsEarned } :=
  logExercise_returned_profile_stale_teamPoints dbTeam "u1" inputTeam 9 dbTeam2
    resTeam ⟨"u1", 1, 0, 0, 0⟩ ⟨"t1", "u1", 0⟩ rfl rfl rfl

/-! ### Claim C7 -/

/-- Two season-s1 leaderboard rows with equal points, stored with the
later-calculated row (time 100) ahead of the earlier one (time 10). -/
def dbLb : Database :=
  { exerciseDifficulties := []
    exerciseCatalog := []
    challenges := []
    userProfiles := []
    teams := []
    teamMembers := []
    levelRequirements := []
    exerciseLogs := []
    leaderboards :=
      [⟨1, "u1", some "s1", none, none, 50, 100⟩,
        ⟨2, "u2", some "s1", none, none, 50, 10⟩] }

/-- Claim C7 counterexample: both queries order by `desc(points)` alone
(season.ts line 70, user.ts line 517); on two equal-point entries the page
keeps the stored order, returning the row created at time 100 before the
one created at time 10 — not the claimed earlier-creation-first tie-break. -/
theorem getLeaderboard_ties_not_by_creation :
    (seasonGetLeaderboard dbLb "s1" 10 none).items.map (fun r => r.points)
        = [50, 50] ∧
      (seasonGetLeaderboard dbLb "s1" 10 none).items.map (fun r => r.calculatedAt)
        = [100, 10] ∧
      ¬ ((100 : Int) ≤ 10) :=
  ⟨by decide, by decide, by decide⟩

theorem getLeaderboardScoped_sorted (rows : List LeaderboardRow)
    (f : LeaderboardRow → Bool) (limit : Nat) (cursor : Option Nat) :
    List.Sorted lbDescPoints (getLeaderboardScoped rows f limit cursor).items := by
  have hsorted : List.Sorted lbDescPoints
      (List.insertionSort lbDescPoints (rows.filter f)) :=
    List.sorted_insertionSort lbDescPoints (rows.filter f)
  have hentries :
      List.Sublist
        (((List.insertionSort lbDescPoints (rows.filter f)).drop
          (cursor.getD 0)).take (limit + 1))
        (List.insertionSort lbDescPoints (rows.filter f)) :=
    (List.take_sublist _ _).trans (List.drop_sublist _ _)
  simp only [getLeaderboardScoped]
  split
  · exact List.Pairwise.sublist
      ((List.dropLast_sublist _).trans hentries) hsorted
  · exact List.Pairwise.sublist hentries hsorted

/-- Claim C7 amended: every page either leaderboard query returns is sorted
by descending points (each item's points are ≥ the next item's); as pure
functions of the stored rows, repeated reads with no writes return the
identical page.  The tie order among equal-point entries follows the stored
row order: no creation-time tie-break exists in the queries. -/
theorem getLeaderboard_sorted_desc (db : Database) (sid cid : String)
    (limit : Nat) (cursor : Option Nat) :
    List.Sorted lbDescPoints (seasonGetLeaderboard db sid limit cursor).items ∧
    List.Sorted lbDescPoints (challengeGetLeaderboard db cid limit cursor).items :=
  ⟨getLeaderboardScoped_sorted _ _ _ _, getLeaderboardScoped_sorted _ _ _ _⟩

/-! ### Claim C8 -/

/-- A challenge whose window is `[0, 10]`. -/
def chBoundary : ChallengeRow := ⟨"c1", "s1", some 0, some 10, false, 1⟩

/-- Store containing only the boundary challenge. -/
def dbBoundary : Database :=
  { exerciseDifficulties := []
    exerciseCatalog := []
    challenges := [chBoundary]
    userProfiles := []
    teams := []
    teamMembers := []
    levelRequirements := []
    exerciseLogs := []
    leaderboards := [] }

/-- Claim C8 counterexample: at exactly `t = endsAt = 10` the claim demands
inactivity, but the logging guard does not reject (`endsAt < now` is false,
user.ts line 360) and the listing filter accepts (`gte(endsAt, now)`,
user.ts line 453): the challenge is treated as active at its end instant. -/
theorem challenge_active_at_endsAt :
    challengeInactiveGuard chBoundary 10 = false ∧
      challengeActiveFilter chBoundary 10 = true ∧
      listActiveChallenges dbBoundary 10 = [chBoundary] :=
  ⟨by decide, by decide, by decide⟩

/-- Claim C8 amended: both activity checks use the closed interval
`[startsAt, endsAt]` — a challenge with non-null bounds is treated as active
at time t exactly when `startsAt ≤ t ∧ t ≤ endsAt`, hence active at both
endpoints, including exactly `endsAt`. -/
theorem challengeWindow_closed_interval (c : ChallengeRow) (s e t : Int)
    (hs : c.startsAt = some s) (he : c.endsAt = some e) :
    (challengeInactiveGuard c t = false ↔ s ≤ t ∧ t ≤ e) ∧
    (challengeActiveFilter c t = true ↔ s ≤ t ∧ t ≤ e) := by
  unfold challengeInactiveGuard challengeActiveFilter
  rw [hs, he]
  constructor
  · simp only [Bool.or_eq_false_iff, decide_eq_false_iff_not, not_lt, ge_iff_le]
  · simp only [Bool.and_eq_true, decide_eq_true_eq, ge_iff_le]

/-- Claim C8 amended, witnessed at the boundary challenge at `t = endsAt`. -/
theorem challengeWindow_closed_interval_witness :
    (challengeInactiveGuard chBoundary 10 = false ↔
      (0 : Int) ≤ 10 ∧ (10 : Int) ≤ 10) ∧
    (challengeActiveFilter chBoundary 10 = true ↔
      (0 : Int) ≤ 10 ∧ (10 : Int) ≤ 10) :=
  challengeWindow_closed_interval chBoundary 0 10 10 rfl rfl

/-! ### Claim C9 -/

theorem mem_setProfile {rows : List UserProfileRow} {u : String}
    {newRow q : UserProfileRow} (hq : q ∈ setProfile rows u newRow) :
    q = newRow ∨ q ∈ rows := by
  unfold setProfile at hq
  obtain ⟨p0, hp0, hpq⟩ := List.mem_map.mp hq
  by_cases hc : (p0.userId == u) = true
  · rw [if_pos hc] at hpq
    exact Or.inl hpq.symm
  · rw [if_neg hc] at hpq
    exact Or.inr (hpq ▸ hp0)

theorem mem_setProfileTeamPoints {rows : List UserProfileRow} {u : String}
    {v : Int} {q : UserProfileRow} (hq : q ∈ setProfileTeamPoints rows u v) :
    ∃ p0 ∈ rows, q.currentPoints = p0.currentPoints ∧
      q.totalPoints = p0.totalPoints := by
  unfold setProfileTeamPoints at hq
  obtain ⟨p0, hp0, hpq⟩ := List.mem_map.mp hq
  by_cases hc : (p0.userId == u) = true
  · rw [if_pos hc] at hpq
    exact ⟨p0, hp0, by rw [← hpq], by rw [← hpq]⟩
  · rw [if_neg hc] at hpq
    exact ⟨p0, hp0, by rw [← hpq], by rw [← hpq]⟩

theorem currentEqTotal_logExercise_ok {db db2 : Database} {u : String}
    {input : LogExerciseInput} {now : Int} {res : LogExerciseResult}
    (h : logExercise db u input now = Except.ok (db2, res))
    (hinv : CurrentEqTotal db) : CurrentEqTotal db2 := by
  obtain ⟨ex, p, hex, hp, hpe, -, -, -, hTP⟩ := logExercise_ok_elim h
  have hpmem : p ∈ db.userProfiles := List.mem_of_find?_eq_some hp
  have hprog :
      (applyProgression db.levelRequirements p (pointsFor db ex)).profile.currentPoints
        = (applyProgression db.levelRequirements p (pointsFor db ex)).profile.totalPoints := by
    rw [applyProgression_currentPoints, applyProgression_totalPoints, hinv p hpmem]
  obtain (⟨-, hdbF⟩ | ⟨tm', team', -, -, hdbF⟩) := teamPhase_ok_elim hTP
  · intro q hq
    rw [hdbF] at hq
    dsimp only at hq
    rcases mem_setProfile hq with hqe | hqm
    · rw [hqe]
      exact hprog
    · exact hinv q hqm
  · dsimp only at hdbF
    intro q hq
    rw [hdbF] at hq
    dsimp only at hq
    obtain ⟨p1, hp1, hc, htot⟩ := mem_setProfileTeamPoints hq
    rw [hc, htot]
    rcases mem_setProfile hp1 with hqe | hqm
    · rw [hqe]
      exact hprog
    · exact hinv p1 hqm

theorem currentEqTotal_applySubmission (db : Database) (s : SubmittedActivity)
    (hinv : CurrentEqTotal db) : CurrentEqTotal (applySubmission db s) := by
  unfold applySubmission
  cases hlog : logExercise db s.userId s.input s.now with
  | error e => exact hinv
  | ok pr =>
    obtain ⟨db2, res⟩ := pr
    exact currentEqTotal_logExercise_ok hlog hinv

/-- Claim C9: starting from any store in which every profile satisfies
`currentPoints = totalPoints` (the schema defaults are 0 and 0), any
sequence of submissions preserves `currentPoints = totalPoints` for every
member: each successful `userRouter.logExercise` adds the identical delta
to both columns (user.ts lines 178-179), the team block touches only
`teamPoints`, failures roll back, and nothing ever resets either column. -/
theorem runSubmissions_current_eq_total (db : Database)
    (ops : List SubmittedActivity) (hinv : CurrentEqTotal db) :
    CurrentEqTotal (runSubmissions db ops) := by
  induction ops generalizing db with
  | nil => exact hinv
  | cons s rest ih => exact ih _ (currentEqTotal_applySubmission db s hinv)

/-- Store with a fresh default profile for the submission-sequence witness. -/
def dbSeq : Database :=
  { exerciseDifficulties := [⟨1, "Beginner"⟩]
    exerciseCatalog := [⟨"exA", "Jog", some 1⟩]
    challenges := []
    userProfiles := [⟨"u1", 1, 0, 0, 0⟩]
    teams := []
    teamMembers := []
    levelRequirements := [⟨1, 0⟩, ⟨2, 10⟩]
    exerciseLogs := []
    leaderboards := [] }

/-- Input used by the submission-sequence witness. -/
def inputSeq : LogExerciseInput :=
  { exerciseId := "exA", challengeId := none, quantity := none
    unit := none, sets := none, weight := none, duration := none
    calories := none }

/-- Three submissions: two successful ones for u1 and one failing one for a
user with no profile (rolled back). -/
def opsSeq : List SubmittedActivity :=
  [⟨"u1", inputSeq, 1⟩, ⟨"u1", inputSeq, 2⟩, ⟨"zz", inputSeq, 3⟩]

/-- Claim C9, witnessed: after the three submissions every stored profile
still satisfies `currentPoints = totalPoints`. -/
theorem runSubmissions_current_eq_total_witness :
    CurrentEqTotal (runSubmissions dbSeq opsSeq) :=
  runSubmissions_current_eq_total dbSeq opsSeq (by decide)

end Ocfitshit
